import Mathlib

/-!
Shallow embedding of the Bandwidth-Hero proxy's decision pipeline
(`pick.rs`, `should_compress.rs`, `compress.rs`, and the pure parts of
`main.rs`), together with theorems settling the frozen claims about it.

Modelling conventions:
* Rust machine integers (`u8`, `u16`, `u32`, `u64`) become `Nat`; the values
  involved (sizes, pixel dimensions, qualities, status codes) never reach a
  wrap-around in the code paths modelled, and `bytes_saved : i64` becomes `Int`.
* `HashMap<String, String>` becomes an association list `List (String × String)`
  where an insertion prepends its pair, so `List.lookup` finds the most recent
  insertion first (insert-overrides semantics).
* The image codecs (`image`'s JPEG encoder, `ravif`'s AVIF encoder) and the
  decode/resize steps are external libraries, abstracted as functions from the
  encoding parameters to output bytes; the decision logic around them is
  embedded verbatim.
* Rust standard string operations are modelled by small helpers over
  `String.data` (the character list), defined first below, so that every
  definition evaluates by kernel reduction.
-/

/-! ### String helpers (models of Rust `str` methods) -/

/-- Rust `str::to_lowercase`, restricted to ASCII case folding (`Char.toLower`
lowercases exactly the ASCII uppercase letters; header names and MIME types
are ASCII). -/
def strToLower (s : String) : String :=
  ⟨s.data.map Char.toLower⟩

/-- Rust `str::is_empty`. -/
def strIsEmpty (s : String) : Bool :=
  s.data.isEmpty

/-- Rust `str::starts_with` (exact, case-sensitive prefix). -/
def strStartsWith (s p : String) : Bool :=
  p.data.isPrefixOf s.data

/-- Rust `str::ends_with` (exact, case-sensitive suffix). -/
def strEndsWith (s p : String) : Bool :=
  p.data.isSuffixOf s.data

/-- Rust `str::trim` (strip leading and trailing whitespace). -/
def strTrim (s : String) : String :=
  ⟨((s.data.dropWhile Char.isWhitespace).reverse.dropWhile Char.isWhitespace).reverse⟩

/-- `str::chars().all(...)`. -/
def strAll (s : String) (p : Char → Bool) : Bool :=
  s.data.all p

/-- A left fold over the characters of a string. -/
def strFoldl {α : Type} (f : α → Char → α) (a : α) (s : String) : α :=
  s.data.foldl f a

/-- Drop the first `n` characters of a string. -/
def strDrop (s : String) (n : Nat) : String :=
  ⟨s.data.drop n⟩

/-! ### `pick.rs` -/

/-- From `pick.rs`: the lowercase-keyed view of the source header map,
`source.iter().map(|(k, v)| (k.to_lowercase(), v)).collect::<HashMap<_, _>>()`.
A later duplicate key overrides an earlier one; prepending makes `List.lookup`
find the latest insertion first.  (Rust `to_lowercase` is Unicode-aware,
`String.toLower` is ASCII-only; header names are ASCII.) -/
def lowerKeyMap (source : List (String × String)) : List (String × String) :=
  source.foldl (fun m kv => (strToLower kv.1, kv.2) :: m) []

/-- One step of `pick`'s loop over the whitelist: look the property up in the
lowercase-keyed source map and, when found, insert it keyed by the property
string as given (`result.insert(prop.to_string(), value)`). -/
def pickStep (skm : List (String × String)) (r : List (String × String)) (p : String) :
    List (String × String) :=
  match skm.lookup (strToLower p) with
  | some v => (p, v) :: r
  | none => r

/-- `pick` from `pick.rs`: case-insensitive projection of `source` onto the
whitelist `properties`. -/
def pick (source : List (String × String)) (properties : List String) :
    List (String × String) :=
  properties.foldl (pickStep (lowerKeyMap source)) []

/-! ### `should_compress.rs` -/

/-- `Config` from `should_compress.rs`. -/
structure SCConfig where
  min_compress_length : Nat
  min_transparent_compress_length : Nat
  max_original_size : Nat

/-- `Config::default()` from `should_compress.rs`. -/
def SCConfig.default : SCConfig :=
  { min_compress_length := 2048
    min_transparent_compress_length := 102400
    max_original_size := 5 * 1024 * 1024 }

/-- Rust `str::eq_ignore_ascii_case` (ASCII case folding on both sides). -/
def eqIgnoreAsciiCase (a b : String) : Bool :=
  strToLower a == strToLower b

/-- `is_supported_image_type` from `should_compress.rs`. -/
def is_supported_image_type (image_type : String) : Bool :=
  ["image/jpeg", "image/png", "image/gif", "image/webp", "image/bmp", "image/tiff"].any
    (fun t => eqIgnoreAsciiCase image_type t)

/-- `should_compress` from `should_compress.rs`. -/
def should_compress (image_type : String) (size : Nat) (is_transparent : Bool)
    (config : SCConfig) : Bool :=
  if strIsEmpty image_type then false
  else if size > config.max_original_size || size < config.min_compress_length then false
  else if !is_supported_image_type image_type then false
  else if is_transparent then decide (size ≥ config.min_compress_length)
  else if strEndsWith image_type "png" || strEndsWith image_type "gif" then
    decide (size ≥ config.min_transparent_compress_length)
  else true

/-! ### `main.rs`: configuration, query parsing, bypass policy -/

/-- `ServerConfig` from `main.rs` (the `port` field is read from the
environment at startup and plays no role in the claims, so it is omitted). -/
structure ServerConfig where
  bypass_threshold : Nat
  fetch_headers_to_pick : List String

/-- `ServerConfig::default()` from `main.rs`. -/
def ServerConfig.default : ServerConfig :=
  { bypass_threshold := 10240
    fetch_headers_to_pick :=
      ["cookie", "dnt", "referer", "user-agent", "accept", "accept-language"] }

/-- `CompressionQuery` from `main.rs`: the raw query parameters. -/
structure CompressionQuery where
  url : Option String
  jpeg : Option String
  bw : Option String
  l : Option String
deriving DecidableEq

/-- `CompressionParams` from `main.rs` (`quality` is a Rust `u8`). -/
structure CompressionParams where
  image_url : String
  is_webp : Bool
  is_grayscale : Bool
  quality : Nat
deriving DecidableEq

/-- Rust `str::parse::<u8>()`: an optional `+` sign followed by at least one
ASCII digit, rejected on overflow past 255. -/
def parseU8 (s : String) : Option Nat :=
  let t := if strStartsWith s "+" then strDrop s 1 else s
  if strIsEmpty t then none
  else if strAll t Char.isDigit then
    let n := strFoldl (fun a c => a * 10 + (c.toNat - 48)) 0 t
    if n ≤ 255 then some n else none
  else none

/-- `parse_query_params` from `main.rs`.  Note the source computes
`is_webp = (jpeg parameter == "1")`, i.e. the flag is `true` when the client
*forced* JPEG, despite the adjacent comment saying `jpeg=1` means the client
wants JPEG (so `is_webp` should be the opposite). -/
def parse_query_params (params : CompressionQuery) : Except String CompressionParams :=
  match params.url with
  | some url =>
    if !strIsEmpty (strTrim url) then
      Except.ok
        { image_url := strTrim url
          is_webp := (params.jpeg.map (fun v => v == "1")).getD false
          is_grayscale := (params.bw.map (fun v => v == "1")).getD false
          quality := (params.l.bind (fun v => parseU8 v)).getD 40 }
    else Except.error "Missing query parameters"
  | none => Except.error "Missing query parameters"

/-- `should_bypass_compression` from `main.rs`. -/
def should_bypass_compression (content_length : Nat) (content_type : String)
    (is_webp : Bool) (config : ServerConfig) : Option String :=
  if content_length < config.bypass_threshold then some "already_small"
  else if !should_compress content_type content_length is_webp SCConfig.default then
    some "criteria_not_met"
  else if !strStartsWith content_type "image/" then some "non-image"
  else none

/-- The argument `compress_handler` (`main.rs`) passes to
`should_bypass_compression` in the `is_webp` position — which flows into
`should_compress`'s `is_transparent` parameter — is `compression_params.is_webp`. -/
def handler_transparency_hint (p : CompressionParams) : Bool :=
  p.is_webp

/-! ### `main.rs`: upstream fetch -/

/-- `UpstreamFetchResult` from `main.rs`. -/
structure UpstreamFetchResult where
  status : Nat
  content_type : String
  data : List Nat
deriving DecidableEq

/-- One attempt of the upstream GET inside `fetch_upstream_image`'s retry
loop: the curl call either yields an HTTP response (of any status) or a
transport-level error. -/
inductive AttemptOutcome where
  | ok (r : UpstreamFetchResult)
  | err (e : String)
deriving DecidableEq

/-- The body of `fetch_upstream_image`'s loop `for _attempt in 0..2`: a
successful HTTP exchange returns immediately (whatever the status code), a
transport failure records `Some(format!("Fetch error: {}", e))` and continues
with the remaining attempts; the exhausted loop returns the last error. -/
def fetchGo (attempts : Nat → AttemptOutcome) :
    List Nat → Option String → Except String UpstreamFetchResult
  | [], last => Except.error (last.getD "Unknown fetch error")
  | a :: rest, _last =>
    match attempts a with
    | .ok r => Except.ok r
    | .err e => fetchGo attempts rest (some ("Fetch error: " ++ e))

/-- `fetch_upstream_image` from `main.rs`, abstracted over the outcome of each
network attempt (`attempts n` is what attempt number `n` would observe); the
semaphore wait, 400 ms delay and header projection do not affect the retry
behaviour modelled here. -/
def fetch_upstream_image (attempts : Nat → AttemptOutcome) :
    Except String UpstreamFetchResult :=
  fetchGo attempts [0, 1] none

/-! ### `compress.rs` -/

/-- `Config` from `compress.rs`. -/
structure CompressConfig where
  max_width : Nat
  max_jpeg_height : Nat
  max_avif_height : Nat
  grayscale_quality_range : Nat × Nat

/-- `Config::default()` from `compress.rs`. -/
def CompressConfig.default : CompressConfig :=
  { max_width := 400
    max_jpeg_height := 32767
    max_avif_height := 16383
    grayscale_quality_range := (10, 40) }

/-- The two members of `image::ImageFormat` that `select_format` can return;
`other` stands for all remaining variants of the library enum, so that the
wildcard arms of `compress`'s `match` statements can be kept. -/
inductive ImageFormat where
  | avif
  | jpeg
  | other
deriving DecidableEq

/-- Round-half-up of the exact quotient `a / b` (for `0 < b`): equals
`round ((a : ℚ) / b)`, and agrees with `f32::round` (round half away from
zero) on these nonnegative values. -/
def roundDiv (a b : Nat) : Nat :=
  (2 * a + b) / (2 * b)

/-- `calculate_dimensions` from `compress.rs`.  The source computes the scale
factor in `f32` (`let ratio = max_width as f32 / width as f32`, then
`(dim as f32 * ratio).round() as u32` for each dimension); the `f32`
arithmetic is modelled as exact arithmetic, `round (dim * max_width / width)`,
which agrees with it at all realistic dimensions. -/
def calculate_dimensions (width height max_width : Nat) : Nat × Nat :=
  if width ≤ max_width then (width, height)
  else (roundDiv (width * max_width) width, roundDiv (height * max_width) width)

/-- `select_format` from `compress.rs`. -/
def select_format (use_avif : Bool) (calculated_height : Nat)
    (config : CompressConfig) : ImageFormat :=
  if calculated_height > config.max_jpeg_height then ImageFormat.jpeg
  else if use_avif && decide (calculated_height > config.max_avif_height) then
    ImageFormat.jpeg
  else if use_avif then ImageFormat.avif
  else ImageFormat.jpeg

/-- `CompressionResult` from `compress.rs` (`data: Vec<u8>` as `List Nat`,
`bytes_saved: i64` as `Int`). -/
structure CompressionResult where
  data : List Nat
  format : String
  bytes_saved : Int
deriving DecidableEq

/-- The encoding capability of the external codecs, abstracted: for a fixed
decoded-and-resized image (the context of one `compress` call), each encoder
maps the effective quality and the grayscale flag to its output bytes.
`jpeg` is `compress_jpeg` (the `image` crate's JPEG encoder), `avif` is the
`ravif` encoder used by the `cfg(feature = "avif")` version of `compress_avif`. -/
structure CodecCaps where
  jpeg : Nat → Bool → List Nat
  avif : Nat → Bool → List Nat

/-- `compress_avif` from `compress.rs`: the build with `feature = "avif"`
encodes through `ravif`; the `cfg(not(feature = "avif"))` fallback version
calls `compress_jpeg` with the same arguments.  `avif_feature` selects which
of the two compiled versions is present in the build. -/
def compress_avif (caps : CodecCaps) (avif_feature : Bool) (quality : Nat)
    (grayscale : Bool) : List Nat :=
  if avif_feature then caps.avif quality grayscale else caps.jpeg quality grayscale

/-- Rust `Ord::clamp` on `u8`. -/
def clampNat (x lo hi : Nat) : Nat :=
  if x < lo then lo else if x > hi then hi else x

/-- The `effective_quality` computation in `compress` (`compress.rs`): when
grayscale is requested the quality is clamped into `grayscale_quality_range`. -/
def effective_quality (config : CompressConfig) (grayscale : Bool) (quality : Nat) : Nat :=
  if grayscale then
    clampNat quality config.grayscale_quality_range.1 config.grayscale_quality_range.2
  else quality

/-- The `compressed_data` computation in `compress` (`compress.rs`): dispatch
on the selected output format to the matching encoder at the effective
quality (`dims` are the dimensions of the decoded source image). -/
def encoded_bytes (caps : CodecCaps) (avif_feature : Bool) (dims : Nat × Nat)
    (use_avif grayscale : Bool) (quality : Nat) : List Nat :=
  let config := CompressConfig.default
  let new_height := (calculate_dimensions dims.1 dims.2 config.max_width).2
  let output_format := select_format use_avif new_height config
  let eff := effective_quality config grayscale quality
  match output_format with
  | ImageFormat.avif => compress_avif caps avif_feature eff grayscale
  | ImageFormat.jpeg => caps.jpeg eff grayscale
  | ImageFormat.other => caps.jpeg eff grayscale

/-- `compress` from `compress.rs`, after a successful decode of `image_data`
into an image of dimensions `dims` (decode, resize and the encoders themselves
are external-library calls; logging is side-effect only).  Embeds the
dimension planning, format selection, quality adjustment, encoder dispatch and
the larger-than-original substitution check verbatim. -/
def compress (caps : CodecCaps) (avif_feature : Bool) (image_data : List Nat)
    (dims : Nat × Nat) (use_avif grayscale : Bool) (quality : Nat)
    (original_size : Nat) : CompressionResult :=
  let config := CompressConfig.default
  let new_height := (calculate_dimensions dims.1 dims.2 config.max_width).2
  let output_format := select_format use_avif new_height config
  let compressed_data := encoded_bytes caps avif_feature dims use_avif grayscale quality
  let compressed_size := compressed_data.length
  let bytes_saved : Int := (original_size : Int) - (compressed_size : Int)
  if compressed_size > original_size then
    { data := image_data, format := "original", bytes_saved := 0 }
  else
    let format_str := match output_format with
      | ImageFormat.avif => "avif"
      | ImageFormat.jpeg => "jpeg"
      | ImageFormat.other => "jpeg"
    { data := compressed_data, format := format_str, bytes_saved := bytes_saved }

/-! ### Claim C6: `select_format` branch structure -/

/-- Claim C6: for every pair `(wantsAvifFamily, scaledHeight)`, `select_format`
returns JPEG whenever the scaled height exceeds 32767; otherwise it returns
JPEG when the AVIF family is wanted and the scaled height exceeds 16383;
otherwise it returns AVIF exactly when the AVIF family is wanted and JPEG
otherwise. -/
theorem C6_select_format_spec (use_avif : Bool) (h : Nat) :
    (h > 32767 → select_format use_avif h CompressConfig.default = ImageFormat.jpeg) ∧
    (h ≤ 32767 → use_avif = true → h > 16383 →
      select_format use_avif h CompressConfig.default = ImageFormat.jpeg) ∧
    (h ≤ 32767 → use_avif = true → h ≤ 16383 →
      select_format use_avif h CompressConfig.default = ImageFormat.avif) ∧
    (h ≤ 32767 → use_avif = false →
      select_format use_avif h CompressConfig.default = ImageFormat.jpeg) := by
  simp only [select_format, CompressConfig.default]
  refine ⟨fun h1 => ?_, fun h1 h2 h3 => ?_, fun h1 h2 h3 => ?_, fun h1 h2 => ?_⟩
  · rw [if_pos h1]
  · subst h2
    rw [if_neg (by omega), if_pos (by simp only [Bool.true_and, decide_eq_true_eq]; omega)]
  · subst h2
    rw [if_neg (by omega), if_neg (by simp only [Bool.true_and, decide_eq_true_eq]; omega),
      if_pos rfl]
  · subst h2
    rw [if_neg (by omega), if_neg (by simp), if_neg (by simp)]

/-- Closed instances of claim C6's theorem at concrete heights. -/
theorem C6_select_format_spec_witness :
    select_format true 40000 CompressConfig.default = ImageFormat.jpeg ∧
    select_format true 20000 CompressConfig.default = ImageFormat.jpeg ∧
    select_format true 1000 CompressConfig.default = ImageFormat.avif ∧
    select_format false 1000 CompressConfig.default = ImageFormat.jpeg :=
  ⟨(C6_select_format_spec true 40000).1 (by decide),
   (C6_select_format_spec true 20000).2.1 (by decide) rfl (by decide),
   (C6_select_format_spec true 1000).2.2.1 (by decide) rfl (by decide),
   (C6_select_format_spec false 1000).2.2.2 (by decide) rfl⟩

/-! ### Claim C4: SVG content type -/

/-- Claim C4 refuted as stated: at content length 100 (below the 10240 bypass
threshold) the reason for `image/svg+xml` is `already_small`, not
`criteria_not_met`. -/
theorem C4_svg_small_counterexample :
    should_bypass_compression 100 "image/svg+xml" false ServerConfig.default =
      some "already_small" ∧
    some "already_small" ≠ some "criteria_not_met" := by
  exact ⟨by decide, by decide⟩

/-- Claim C4 (amended): for `image/svg+xml`, `should_bypass_compression`
returns `criteria_not_met` at every content length at or above the bypass
threshold 10240, and `already_small` below it. -/
theorem C4_svg_criteria_not_met (n : Nat) (w : Bool) :
    (10240 ≤ n →
      should_bypass_compression n "image/svg+xml" w ServerConfig.default =
        some "criteria_not_met") ∧
    (n < 10240 →
      should_bypass_compression n "image/svg+xml" w ServerConfig.default =
        some "already_small") := by
  have hsc : should_compress "image/svg+xml" n w SCConfig.default = false := by
    unfold should_compress SCConfig.default
    have hsupp : is_supported_image_type "image/svg+xml" = false := by decide
    have hempty : strIsEmpty "image/svg+xml" = false := by decide
    rw [hempty, hsupp]
    by_cases hn : (5 * 1024 * 1024 : Nat) < n ∨ n < 2048 <;> simp_all
  constructor
  · intro hn
    simp only [should_bypass_compression, ServerConfig.default, hsc, Bool.not_false, if_true]
    rw [if_neg (by omega)]
  · intro hn
    simp only [should_bypass_compression, ServerConfig.default]
    rw [if_pos (by omega)]

/-- Closed instances of claim C4's amended theorem on both sides of the
threshold. -/
theorem C4_svg_criteria_not_met_witness :
    should_bypass_compression 20000 "image/svg+xml" false ServerConfig.default =
      some "criteria_not_met" ∧
    should_bypass_compression 100 "image/svg+xml" true ServerConfig.default =
      some "already_small" :=
  ⟨(C4_svg_criteria_not_met 20000 false).1 (by decide),
   (C4_svg_criteria_not_met 100 true).2 (by decide)⟩

/-! ### Claim C10: reachability of the `non-image` reason -/

/-- Claim C10 refuted as stated: an upper-case spelling of a supported type
passes the case-insensitive whitelist of `should_compress` but fails the
case-sensitive `starts_with("image/")` check, so `should_bypass_compression`
does return `non-image`. -/
theorem C10_non_image_counterexample :
    should_bypass_compression 50000 "IMAGE/JPEG" false ServerConfig.default =
      some "non-image" := by
  decide

/-- Claim C10 (amended): for every content type that starts with the exact
lower-case prefix `image/`, `should_bypass_compression` never returns
`non-image` (the reason is reachable only through case-variant spellings of
whitelisted types). -/
theorem C10_non_image_unreachable_lowercase (n : Nat) (ct : String) (w : Bool)
    (h : strStartsWith ct "image/" = true) :
    should_bypass_compression n ct w ServerConfig.default ≠ some "non-image" := by
  unfold should_bypass_compression
  split_ifs with h1 h2 h3
  · decide
  · decide
  · rw [h] at h3
    exact absurd h3 (by decide)
  · decide

/-- Closed instance of claim C10's amended theorem. -/
theorem C10_non_image_unreachable_lowercase_witness :
    should_bypass_compression 50000 "image/png" false ServerConfig.default ≠
      some "non-image" :=
  C10_non_image_unreachable_lowercase 50000 "image/png" false (by decide)

/-! ### Claim C2: the transparency hint the handler passes -/

/-- Claim C2 evaluated at its failing input: with the `jpeg` parameter absent
(the client did not force JPEG), `parse_query_params` sets `is_webp = false`
— the flag the handler passes as `should_compress`'s transparency hint — so a
fetched 50000-byte `image/png` body is bypassed with `criteria_not_met`;
had the hint been `true` as the claim states, it would not have been
bypassed. -/
theorem C2_transparency_hint_inverted :
    parse_query_params ⟨some "http://example.com/a.png", none, none, none⟩ =
      Except.ok ⟨"http://example.com/a.png", false, false, 40⟩ ∧
    handler_transparency_hint ⟨"http://example.com/a.png", false, false, 40⟩ = false ∧
    should_bypass_compression 50000 "image/png" false ServerConfig.default =
      some "criteria_not_met" ∧
    should_bypass_compression 50000 "image/png" true ServerConfig.default = none := by
  exact ⟨by rfl, by rfl, by decide, by decide⟩

/-! ### Claim C3: fetch retry behaviour -/

/-- Claim C3: an HTTP response on the first attempt — whatever its status —
is returned immediately as a successful fetch result; a transport failure on
the first attempt triggers exactly one retry; two consecutive transport
failures yield the transport error (the last one, tagged `Fetch error:`); and
the outcome depends only on the first two attempts, so there is never a third
attempt. -/
theorem C3_fetch_retry (attempts : Nat → AttemptOutcome) :
    (∀ r, attempts 0 = AttemptOutcome.ok r →
      fetch_upstream_image attempts = Except.ok r) ∧
    (∀ e r, attempts 0 = AttemptOutcome.err e → attempts 1 = AttemptOutcome.ok r →
      fetch_upstream_image attempts = Except.ok r) ∧
    (∀ e₁ e₂, attempts 0 = AttemptOutcome.err e₁ → attempts 1 = AttemptOutcome.err e₂ →
      fetch_upstream_image attempts = Except.error ("Fetch error: " ++ e₂)) ∧
    (∀ g : Nat → AttemptOutcome, attempts 0 = g 0 → attempts 1 = g 1 →
      fetch_upstream_image attempts = fetch_upstream_image g) := by
  refine ⟨fun r h0 => ?_, fun e r h0 h1 => ?_, fun e₁ e₂ h0 h1 => ?_, fun g h0 h1 => ?_⟩
  · simp [fetch_upstream_image, fetchGo, h0]
  · simp [fetch_upstream_image, fetchGo, h0, h1]
  · simp [fetch_upstream_image, fetchGo, h0, h1]
  · simp [fetch_upstream_image, fetchGo, h0, h1]

/-- Closed instances of claim C3's theorem: a 404 response returned as-is
with no retry, one retry after a transport failure, and the transport error
after two failures. -/
theorem C3_fetch_retry_witness :
    fetch_upstream_image (fun _ => AttemptOutcome.ok ⟨404, "text/html", []⟩) =
      Except.ok ⟨404, "text/html", []⟩ ∧
    fetch_upstream_image
        (fun n => if n = 0 then AttemptOutcome.err "connect timed out"
          else AttemptOutcome.ok ⟨200, "image/png", [1]⟩) =
      Except.ok ⟨200, "image/png", [1]⟩ ∧
    fetch_upstream_image
        (fun n => if n = 0 then AttemptOutcome.err "refused"
          else AttemptOutcome.err "reset") =
      Except.error "Fetch error: reset" :=
  ⟨(C3_fetch_retry _).1 _ rfl,
   (C3_fetch_retry _).2.1 "connect timed out" _ rfl rfl,
   (C3_fetch_retry _).2.2.1 "refused" "reset" rfl rfl⟩

/-! ### Claim C8: the quality value -/

/-- Whatever `str::parse::<u8>()` accepts is at most 255. -/
theorem parseU8_le_255 (s : String) (n : Nat) (h : parseU8 s = some n) : n ≤ 255 := by
  unfold parseU8 at h
  split_ifs at h <;> simp_all <;> omega

/-- Claim C8 refuted as stated: the `l` parameter is parsed as an unsigned
8-bit integer with no further clamp, so `l=200` makes the pipeline pass
quality 200 to the transcoder, outside `[0, 100]`. -/
theorem C8_quality_counterexample :
    parse_query_params ⟨some "http://example.com/a.png", none, none, some "200"⟩ =
      Except.ok ⟨"http://example.com/a.png", false, false, 200⟩ ∧
    ¬(200 ≤ 100) :=
  ⟨by rfl, by decide⟩

/-- The quality field produced by `parse_query_params` is at most 255, and is
exactly 40 when the `l` parameter is absent. -/
theorem quality_field_bounds (l : Option String) :
    ((l.bind fun v => parseU8 v).getD 40) ≤ 255 ∧
    (l = none → ((l.bind fun v => parseU8 v).getD 40) = 40) := by
  cases l with
  | none => simp
  | some v =>
    refine ⟨?_, by simp⟩
    cases hp : parseU8 v with
    | none => simp [hp]
    | some m => simpa [hp] using parseU8_le_255 v m hp

/-- Claim C8 (amended): for every inbound request the parsed quality lies in
`[0, 255]` (the `u8` range), with the value 40 used when the `l` parameter is
absent. -/
theorem C8_quality_range (q : CompressionQuery) (p : CompressionParams)
    (h : parse_query_params q = Except.ok p) :
    p.quality ≤ 255 ∧ (q.l = none → p.quality = 40) := by
  unfold parse_query_params at h
  split at h
  case h_2 => exact absurd h (by simp)
  case h_1 url hurl =>
    split_ifs at h with ht
    cases h
    exact quality_field_bounds q.l

/-- Closed instance of claim C8's amended theorem at a request without `l`. -/
theorem C8_quality_range_witness :
    (⟨"http://example.com/a.png", false, false, 40⟩ : CompressionParams).quality ≤ 255 ∧
    ((⟨some "http://example.com/a.png", none, none, none⟩ : CompressionQuery).l = none →
      (⟨"http://example.com/a.png", false, false, 40⟩ : CompressionParams).quality = 40) :=
  C8_quality_range ⟨some "http://example.com/a.png", none, none, none⟩
    ⟨"http://example.com/a.png", false, false, 40⟩ (by rfl)

/-! ### Claim C1: `compress` never returns a larger payload -/

/-- Claim C1: when `original_size` equals the length of the source bytes, the
returned data is never longer than `original_size`; if the encoded bytes are
strictly larger, the original bytes are returned verbatim with format
`original` and `bytes_saved = 0`; otherwise the encoded bytes are returned
with `bytes_saved = original_size - encoded size`, which is nonnegative. -/
theorem C1_compress_never_larger (caps : CodecCaps) (avif_feature : Bool)
    (image_data : List Nat) (dims : Nat × Nat) (use_avif grayscale : Bool)
    (quality original_size : Nat)
    (hsize : original_size = image_data.length) :
    ((compress caps avif_feature image_data dims use_avif grayscale quality
        original_size).data.length ≤ original_size) ∧
    (0 ≤ (compress caps avif_feature image_data dims use_avif grayscale quality
        original_size).bytes_saved) ∧
    ((encoded_bytes caps avif_feature dims use_avif grayscale quality).length >
        original_size →
      compress caps avif_feature image_data dims use_avif grayscale quality
          original_size =
        ⟨image_data, "original", 0⟩) ∧
    ((encoded_bytes caps avif_feature dims use_avif grayscale quality).length ≤
        original_size →
      (compress caps avif_feature image_data dims use_avif grayscale quality
          original_size).data =
        encoded_bytes caps avif_feature dims use_avif grayscale quality ∧
      (compress caps avif_feature image_data dims use_avif grayscale quality
          original_size).bytes_saved =
        (original_size : Int) -
          ((encoded_bytes caps avif_feature dims use_avif grayscale quality).length : Int)) := by
  unfold compress
  by_cases hgt :
      (encoded_bytes caps avif_feature dims use_avif grayscale quality).length >
        original_size
  · rw [if_pos hgt]
    refine ⟨by simp [hsize], by simp, fun _ => rfl, fun hle => absurd hle (by omega)⟩
  · rw [if_neg hgt]
    refine ⟨by simpa using Nat.le_of_not_lt hgt, ?_, fun hgt2 => absurd hgt2 hgt,
      fun _ => ⟨rfl, rfl⟩⟩
    have : ((encoded_bytes caps avif_feature dims use_avif grayscale quality).length : Int) ≤
        (original_size : Int) := by exact_mod_cast Nat.le_of_not_lt hgt
    simp only
    omega

/-- Closed instance of claim C1's theorem: a 5-byte encoding of a 3-byte
source is discarded in favour of the original bytes. -/
theorem C1_compress_never_larger_witness :
    (3 = ([9, 9, 9] : List Nat).length) ∧
    compress ⟨fun _ _ => [1, 2], fun _ _ => [3, 4, 5, 6, 7]⟩ true [9, 9, 9] (500, 500)
        true false 40 3 =
      ⟨[9, 9, 9], "original", 0⟩ :=
  ⟨rfl,
   (C1_compress_never_larger ⟨fun _ _ => [1, 2], fun _ _ => [3, 4, 5, 6, 7]⟩ true
      [9, 9, 9] (500, 500) true false 40 3 rfl).2.2.1 (by decide)⟩

/-! ### Claim C9: the AVIF-less build -/

/-- In a build without the AVIF capability, every encoding path of `compress`
goes through the JPEG encoder at the effective quality. -/
theorem encoded_bytes_no_avif (caps : CodecCaps) (dims : Nat × Nat)
    (use_avif grayscale : Bool) (quality : Nat) :
    encoded_bytes caps false dims use_avif grayscale quality =
      caps.jpeg (effective_quality CompressConfig.default grayscale quality) grayscale := by
  rcases hf : select_format use_avif
      (calculate_dimensions dims.1 dims.2 CompressConfig.default.max_width).2
      CompressConfig.default with _ | _ | _ <;>
    simp [encoded_bytes, compress_avif, hf]

/-- An AVIF-capable build whose AVIF encoder happens to be the JPEG encoder
also sends every encoding path through the JPEG encoder. -/
theorem encoded_bytes_avif_as_jpeg (caps : CodecCaps) (dims : Nat × Nat)
    (use_avif grayscale : Bool) (quality : Nat) :
    encoded_bytes ⟨caps.jpeg, caps.jpeg⟩ true dims use_avif grayscale quality =
      caps.jpeg (effective_quality CompressConfig.default grayscale quality) grayscale := by
  rcases hf : select_format use_avif
      (calculate_dimensions dims.1 dims.2 CompressConfig.default.max_width).2
      CompressConfig.default with _ | _ | _ <;>
    simp [encoded_bytes, compress_avif, hf]

/-- Claim C9 refuted as stated: in the AVIF-less build, `compress` with
`use_avif = true` returns the JPEG encoder's bytes (`[7]`, not the AVIF
encoder's `[9]`) under the format tag `avif` — the tag names the selected
format, not the encoding actually performed. -/
theorem C9_format_tag_counterexample :
    compress ⟨fun _ _ => [7], fun _ _ => [9]⟩ false [1, 2, 3] (500, 500) true false 40
        1000 =
      ⟨[7], "avif", 999⟩ ∧
    (⟨fun _ _ => [7], fun _ _ => [9]⟩ : CodecCaps).jpeg 40 false = [7] ∧
    "avif" ≠ "jpeg" :=
  ⟨by decide, rfl, by decide⟩

/-- Claim C9 (amended): in a build where the AVIF capability is absent,
`compress` with `use_avif = true` behaves exactly like the AVIF-capable build
would if its AVIF encoder were the JPEG encoder — same contract, same
effective quality handed to the JPEG encoder, and the same output format tag
as the AVIF build (the tag reflects the selected format, not the actual JPEG
encoding performed). -/
theorem C9_avif_fallback (caps : CodecCaps) (image_data : List Nat) (dims : Nat × Nat)
    (grayscale : Bool) (quality original_size : Nat) :
    compress caps false image_data dims true grayscale quality original_size =
      compress ⟨caps.jpeg, caps.jpeg⟩ true image_data dims true grayscale quality
        original_size ∧
    encoded_bytes caps false dims true grayscale quality =
      caps.jpeg (effective_quality CompressConfig.default grayscale quality) grayscale := by
  refine ⟨?_, encoded_bytes_no_avif caps dims true grayscale quality⟩
  unfold compress
  rw [encoded_bytes_no_avif, encoded_bytes_avif_as_jpeg]

/-! ### Claim C5: `pick` -/

/-- Lookup in the accumulator of `pick`'s loop: a key `p` is bound exactly
when some processed whitelist entry equals `p` and the source has a
case-insensitive match for it, and then it carries that match's value. -/
theorem pick_foldl_lookup (skm : List (String × String)) (props : List String)
    (r : List (String × String)) (p : String) :
    (props.foldl (pickStep skm) r).lookup p =
      if p ∈ props ∧ (skm.lookup (strToLower p)).isSome then skm.lookup (strToLower p)
      else r.lookup p := by
  induction props generalizing r with
  | nil => simp
  | cons a rest ih =>
    rw [List.foldl_cons, ih]
    by_cases hmem : p ∈ rest ∧ (skm.lookup (strToLower p)).isSome
    · rw [if_pos hmem, if_pos ⟨List.mem_cons_of_mem a hmem.1, hmem.2⟩]
    · rw [if_neg hmem]
      unfold pickStep
      by_cases hap : a = p
      · subst hap
        cases hsk : skm.lookup (strToLower a) with
        | none =>
          rw [if_neg]
          intro hc
          exact absurd hc.2 (by simp)
        | some v =>
          rw [if_pos ⟨List.mem_cons_self a rest, rfl⟩]
          exact List.lookup_cons_self
      · have hcond : ¬(p ∈ a :: rest ∧ (skm.lookup (strToLower p)).isSome) := by
          intro hc
          rcases List.mem_cons.mp hc.1 with h1 | h1
          · exact hap h1.symm
          · exact hmem ⟨h1, hc.2⟩
        rw [if_neg hcond]
        cases hsk : skm.lookup (strToLower a) with
        | none => rfl
        | some v =>
          have hpa : (p == a) = false := beq_eq_false_iff_ne.mpr (Ne.symm hap)
          have hlk : List.lookup p ((a, v) :: r) = List.lookup p r := by
            simp [List.lookup_cons, hpa]
          exact hlk

/-- Claim C5 refuted as stated: `pick` keys its result by the whitelist entry
as given, not by the lower-case spelling, so the whitelist `["REFERER"]`
against the source `{"referer": "Y"}` yields an entry under `REFERER` and no
entry under the canonical lower-case `referer`. -/
theorem C5_pick_counterexample :
    (pick [("referer", "Y")] ["REFERER"]).lookup "referer" = none ∧
    (pick [("referer", "Y")] ["REFERER"]).lookup "REFERER" = some "Y" :=
  ⟨by decide, by decide⟩

/-- Claim C5 (amended): `pick` returns a map containing exactly the whitelist
entries found in the source, matched case-insensitively (a later duplicate
source key overriding an earlier one), keyed by the whitelist entry's
spelling as given — which is the canonical lower-case spelling whenever the
whitelist is lower-case, as in the server's configuration; a key absent from
the source yields no entry rather than an error. -/
theorem C5_pick_spec (source : List (String × String)) (props : List String) :
    (∀ p, p ∈ props →
      (pick source props).lookup p = (lowerKeyMap source).lookup (strToLower p)) ∧
    (∀ p, p ∉ props → (pick source props).lookup p = none) := by
  constructor
  · intro p hp
    unfold pick
    rw [pick_foldl_lookup]
    by_cases hs : ((lowerKeyMap source).lookup (strToLower p)).isSome
    · rw [if_pos ⟨hp, hs⟩]
    · rw [if_neg (fun hc => hs hc.2), List.lookup_nil]
      cases hn : (lowerKeyMap source).lookup (strToLower p) with
      | none => rfl
      | some v => rw [hn] at hs; exact absurd rfl hs
  · intro p hp
    unfold pick
    rw [pick_foldl_lookup, if_neg (fun hc => hp hc.1), List.lookup_nil]

/-- Closed instances of claim C5's amended theorem: the spec's example source
with the real whitelist, a present key, an absent whitelisted key, and a
non-whitelisted key. -/
theorem C5_pick_spec_witness :
    (pick [("User-Agent", "X"), ("REFERER", "Y")] ["user-agent", "referer"]).lookup
        "user-agent" =
      (lowerKeyMap [("User-Agent", "X"), ("REFERER", "Y")]).lookup
        (strToLower "user-agent") ∧
    (lowerKeyMap [("User-Agent", "X"), ("REFERER", "Y")]).lookup
        (strToLower "user-agent") = some "X" ∧
    (pick [("User-Agent", "X"), ("REFERER", "Y")] ["user-agent", "referer"]).lookup
        "cookie" = none :=
  ⟨(C5_pick_spec [("User-Agent", "X"), ("REFERER", "Y")] ["user-agent", "referer"]).1
      "user-agent" (by decide),
   by decide,
   (C5_pick_spec [("User-Agent", "X"), ("REFERER", "Y")] ["user-agent", "referer"]).2
      "cookie" (by decide)⟩

/-! ### Claim C7: `calculate_dimensions` -/

/-- `roundDiv` inverts an exact multiple: rounding `(w * m) / w` gives `m`. -/
theorem roundDiv_mul_self (m w : Nat) (hw : 0 < w) : roundDiv (w * m) w = m := by
  unfold roundDiv
  rw [show 2 * (w * m) + w = w * (2 * m + 1) by ring, show 2 * w = w * 2 by ring,
    Nat.mul_div_mul_left _ _ hw]
  omega

/-- `roundDiv a w` is within half a unit of the exact quotient `a / w`. -/
theorem roundDiv_close (a w : Nat) (hw : 0 < w) :
    |((roundDiv a w : ℚ)) - (a : ℚ) / (w : ℚ)| ≤ 1 / 2 := by
  have hkey := Nat.div_add_mod (2 * a + w) (2 * w)
  have hrlt : (2 * a + w) % (2 * w) < 2 * w := Nat.mod_lt _ (by omega)
  have hq : ((2 * w : Nat) : ℚ) * (roundDiv a w : ℚ) +
      (((2 * a + w) % (2 * w) : Nat) : ℚ) = ((2 * a + w : Nat) : ℚ) := by
    unfold roundDiv
    exact_mod_cast hkey
  have hwq : (0 : ℚ) < w := by exact_mod_cast hw
  have hr0 : (0 : ℚ) ≤ (((2 * a + w) % (2 * w) : Nat) : ℚ) := by positivity
  have hrq : (((2 * a + w) % (2 * w) : Nat) : ℚ) < 2 * w := by exact_mod_cast hrlt
  have hdiv : (a : ℚ) / w * w = a := div_mul_cancel₀ _ (ne_of_gt hwq)
  push_cast at hq
  rw [abs_le]
  constructor
  · nlinarith [hq, hdiv, hr0, hrq, hwq]
  · nlinarith [hq, hdiv, hr0, hrq, hwq]

/-- Claim C7: if the width is within the bound, `calculate_dimensions` is the
identity; otherwise the planned width equals the bound and the planned height
is within one pixel of exact aspect-preserving scaling; and planning is
idempotent — re-planning the planned output with the bound set to the planned
width is a no-op. -/
theorem C7_calculate_dimensions (w h m : Nat) :
    (w ≤ m → calculate_dimensions w h m = (w, h)) ∧
    (m < w →
      (calculate_dimensions w h m).1 = m ∧
      |(((calculate_dimensions w h m).2 : ℚ)) - (h : ℚ) * ((m : ℚ) / (w : ℚ))| ≤ 1) ∧
    (calculate_dimensions (calculate_dimensions w h m).1 (calculate_dimensions w h m).2
        (calculate_dimensions w h m).1 = calculate_dimensions w h m) := by
  have hself : ∀ x y : Nat, calculate_dimensions x y x = (x, y) := fun x y => by
    unfold calculate_dimensions
    rw [if_pos (le_refl x)]
  refine ⟨fun hw => ?_, fun hm => ?_, ?_⟩
  · unfold calculate_dimensions
    rw [if_pos hw]
  · have hw0 : 0 < w := by omega
    unfold calculate_dimensions
    rw [if_neg (by omega)]
    refine ⟨roundDiv_mul_self m w hw0, ?_⟩
    show |((roundDiv (h * m) w : ℚ)) - (h : ℚ) * ((m : ℚ) / (w : ℚ))| ≤ 1
    have hc := roundDiv_close (h * m) w hw0
    push_cast at hc
    rw [← mul_div_assoc]
    exact le_trans hc (by norm_num)
  · rw [hself]

/-- Closed instances of claim C7's theorem: identity below the bound, exact
planned width, bounded aspect drift and idempotence above it. -/
theorem C7_calculate_dimensions_witness :
    calculate_dimensions 200 150 400 = (200, 150) ∧
    (calculate_dimensions 800 600 400).1 = 400 ∧
    |(((calculate_dimensions 800 600 400).2 : ℚ)) -
        ((600 : Nat) : ℚ) * (((400 : Nat) : ℚ) / ((800 : Nat) : ℚ))| ≤ 1 ∧
    calculate_dimensions (calculate_dimensions 800 600 400).1
        (calculate_dimensions 800 600 400).2 (calculate_dimensions 800 600 400).1 =
      calculate_dimensions 800 600 400 :=
  ⟨(C7_calculate_dimensions 200 150 400).1 (by decide),
   ((C7_calculate_dimensions 800 600 400).2.1 (by decide)).1,
   ((C7_calculate_dimensions 800 600 400).2.1 (by decide)).2,
   (C7_calculate_dimensions 800 600 400).2.2⟩
